import Mathlib

/-!
Verification of the lan-discovery hybrid scan orchestrator.

This development shallowly embeds the hybrid scan orchestration logic of
`src/index.js` (`startHybridScan` and its local closures `schedulePing`,
`executePing`, `launchNextPing`, `checkAndEmitDevicesInfos`,
`arpResponseHandler`, `arpCompleteHandler`), the generic scan summary
builder `Scanner.buildScanResult` of `scanner.js`, and the parameter
defaulting at the top of `startHybridScan`.

The orchestrator is modelled as an explicit state machine.  Environment
occurrences (ARP discovery responses, discovery completion, discovery
start failure, liveness probe replies, completion of the asynchronous
`deviceInfos` enrichment that runs inside each probe callback, and firing
of `setTimeout` timers scheduled by `launchNextPing`) are events carrying
a timestamp; a step function replays the JavaScript handler code for each
event.  Wall-clock reads (`Date.now()`) evaluate to the timestamp of the
event being processed.
-/

namespace LanDiscovery

/-- Device record as built in the ping callback of `startHybridScan`
(`deviceInfo` in `executePing`): hostname (null on resolver failure),
address, link address, and liveness flag (`respondsToPing = !error`). -/
structure Device where
  name : Option String
  ip : String
  mac : String
  respondsToPing : Bool
deriving DecidableEq, Repr

/-- Payload of `EVENT_SCAN_COMPLETE` as emitted by
`checkAndEmitDevicesInfos` (src/index.js lines 561-566). -/
structure ScanReport where
  ipArray : List String
  scanCount : Nat
  scanTimeMS : Nat
  scanAverageMS : Nat
deriving DecidableEq, Repr

/-- Events emitted by the orchestrator on the `LanDiscovery` emitter. -/
inductive Emit where
  | arpResponse (ip mac : String)
  | arpCompleteEv
  | scanResponse (ip : String)
  | deviceInfos (d : Device)
  | scanComplete (r : ScanReport)
  | devicesInfos (ds : List Device)
deriving DecidableEq, Repr

/-- Listener tags on the shared `scannerARP` emitter.  The `LanDiscovery`
constructor installs the default response/complete pair; `startHybridScan`
removes all listeners and installs the hybrid pair for the duration of a
run (src/index.js lines 691-694). -/
inductive LTag where
  | defaultResp
  | hybridResp
  | defaultComp
  | hybridComp
deriving DecidableEq, Repr

/-- Environment events driving one hybrid scan run.  Each carries the
wall-clock time at which its JavaScript callback runs. -/
inductive Ev where
  | arpResp (ip mac : String) (t : Nat)
  | arpComplete (t : Nat)
  | arpFail (msg : String) (t : Nat)
  | pingReply (ip : String) (error : Bool) (t : Nat)
  | enrichDone (ip : String) (hostname : Option String) (t : Nat)
  | timerFire (t : Nat)
deriving DecidableEq, Repr

/-- State of one `startHybridScan` run (the local variables declared at
src/index.js lines 497-506 plus bookkeeping for outstanding callbacks,
pending `setTimeout` timers, pending `deviceInfos` awaits, the listener
lists on `scannerARP`, and ghost fields recording the observable run
history). -/
structure HState where
  interval : Nat
  pingQueue : List (String × String)
  pingInProgress : List String
  pingCompleted : List (String × Device)
  arpDeviceMap : List (String × String)
  lastPingTime : Nat
  arpScanComplete : Bool
  pendingTimers : List Nat
  outstanding : List (String × String)
  pendingEnrich : List (String × String × Bool)
  respListeners : List LTag
  compListeners : List LTag
  sessionClosed : Bool
  rejected : Option String
  arpDone : Bool
  arpFailed : Bool
  clock : Nat
  events : List Emit
  dispatchLog : List (String × Nat)
deriving DecidableEq, Repr

/-- JavaScript `Map.prototype.set`: update in place if the key exists,
otherwise append (JS maps preserve insertion order). -/
def mapSet {α : Type} : List (String × α) → String → α → List (String × α)
  | [], k, v => [(k, v)]
  | (k2, v2) :: rest, k, v =>
    if k2 = k then (k, v) :: rest else (k2, v2) :: mapSet rest k v

/-- JavaScript `Map.prototype.get` (absent key gives `undefined`). -/
def mapGet {α : Type} (m : List (String × α)) (k : String) : Option α :=
  (m.find? (fun p => p.1 == k)).map (·.2)

/-- JavaScript `Set.prototype.add` (no-op when the element is present). -/
def setAdd (s : List String) (x : String) : List String :=
  if s.contains x then s else s ++ [x]

/-- JavaScript `x || y` on a possibly-absent string (`undefined` and the
empty string are falsy). -/
def jsOr (x : Option String) (y : String) : String :=
  match x with
  | some v => if v = "" then y else v
  | none => y

/-- Remove the first entry with the given key from an association list,
returning its value and the remainder. -/
def popFirst {α : Type} (key : String) : List (String × α) → Option (α × List (String × α))
  | [] => none
  | (k, v) :: rest =>
    if k = key then some (v, rest)
    else
      match popFirst key rest with
      | none => none
      | some (v2, l) => some (v2, (k, v) :: l)

/-- Per-segment numeric comparator from the sort callback in
`checkAndEmitDevicesInfos` (src/index.js lines 532-541): at the first
differing segment return `ipA[i] - ipB[i]`, otherwise 0. -/
def segCmp : List Nat → List Nat → Int
  | a :: as, b :: bs => if a ≠ b then (a : Int) - (b : Int) else segCmp as bs
  | _, _ => 0

/-- Split a character list at every dot, like `String.prototype.split`. -/
def splitDots : List Char → List (List Char)
  | [] => [[]]
  | c :: rest =>
    if c = '.' then [] :: splitDots rest
    else
      match splitDots rest with
      | [] => [[c]]
      | seg :: segs => (c :: seg) :: segs

/-- Decimal value of a digit segment (the value `Number` gives a
well-formed decimal numeral). -/
def segToNat (cs : List Char) : Nat :=
  cs.foldl (fun acc c => acc * 10 + (c.toNat - 48)) 0

/-- `ip.split('.').map(Number)` for well-formed dotted-decimal strings. -/
def ipSegs (s : String) : List Nat :=
  (splitDots s.data).map segToNat

/-- Boolean form of "the comparator orders `a` at or before `b`". -/
def devLe (a b : Device) : Bool :=
  decide (segCmp (ipSegs a.ip) (ipSegs b.ip) ≤ 0)

/-- Stable insertion of an element into a list sorted by `le`. -/
def ordInsert {α : Type} (le : α → α → Bool) (a : α) : List α → List α
  | [] => [a]
  | b :: l => if le a b then a :: b :: l else b :: ordInsert le a l

/-- Stable sort by `le`; models `Array.prototype.sort` with the numeric
per-segment comparator (a stable comparison sort). -/
def insSort {α : Type} (le : α → α → Bool) : List α → List α
  | [] => []
  | a :: l => ordInsert le a (insSort le l)

/-- `Array.from(pingCompleted.values())` followed by the numeric sort. -/
def sortedCompleted (s : HState) : List Device :=
  insSort devLe (s.pingCompleted.map (·.2))

/-- `checkAndEmitDevicesInfos` (src/index.js lines 509-568): when the ARP
phase is done and no ping is queued or in flight, close the shared ping
session, restore the default ARP listeners, and emit the
`EVENT_SCAN_COMPLETE` summary followed by `EVENT_DEVICES_INFOS`. -/
def checkAndEmitDevicesInfos (s : HState) : HState :=
  if s.arpScanComplete = false then s
  else if 0 < s.pingInProgress.length ∨ 0 < s.pingQueue.length then s
  else
    let allDevices := sortedCompleted s
    { s with
      sessionClosed := true
      respListeners := [LTag.defaultResp]
      compListeners := [LTag.defaultComp]
      events := s.events ++
        [Emit.scanComplete
          { ipArray := allDevices.map (·.ip)
            scanCount := allDevices.length
            scanTimeMS := 0
            scanAverageMS := 0 },
         Emit.devicesInfos allDevices] }

/-- `executePing` (src/index.js lines 571-618) up to its asynchronous
callback: shift the queue head, mark the address in flight, record the
dispatch time, and issue `pingHost` (registering an outstanding
callback). -/
def executePing (s : HState) (t : Nat) : HState :=
  match s.pingQueue with
  | [] => s
  | (ip, mac) :: rest =>
    { s with
      pingQueue := rest
      pingInProgress := setAdd s.pingInProgress ip
      lastPingTime := t
      outstanding := s.outstanding ++ [(ip, mac)]
      dispatchLog := s.dispatchLog ++ [(ip, t)] }

/-- `launchNextPing` (src/index.js lines 621-645): respect the pacing
interval, dispatching immediately or scheduling a `setTimeout` for the
remaining delay (the timer calls `executePing` directly). -/
def launchNextPing (s : HState) (t : Nat) : HState :=
  if s.pingQueue.length = 0 then s
  else if 0 < s.interval ∧ 0 < s.pingInProgress.length then s
  else if s.interval = 0 ∨ s.interval ≤ t - s.lastPingTime then executePing s t
  else { s with pendingTimers := s.pendingTimers ++ [t + (s.interval - (t - s.lastPingTime))] }

/-- `schedulePing` (src/index.js lines 648-664): skip addresses already in
flight or completed; otherwise enqueue, record the link address, and try
to dispatch. -/
def schedulePing (s : HState) (ip mac : String) (t : Nat) : HState :=
  if s.pingInProgress.contains ip || (mapGet s.pingCompleted ip).isSome then s
  else
    launchNextPing
      { s with
        pingQueue := s.pingQueue ++ [(ip, mac)]
        arpDeviceMap := mapSet s.arpDeviceMap ip mac } t

/-- One ARP response listener (src/index.js lines 549-551 for the default
handler, 667-673 for the hybrid `arpResponseHandler`). -/
def runRespListener (ip mac : String) (t : Nat) (s : HState) : LTag → HState
  | LTag.defaultResp => { s with events := s.events ++ [Emit.arpResponse ip mac] }
  | LTag.hybridResp =>
    schedulePing { s with events := s.events ++ [Emit.arpResponse ip mac] } ip mac t
  | _ => s

/-- One ARP complete listener (src/index.js lines 552-554 for the default
handler, 675-688 for the hybrid `arpCompleteHandler`). -/
def runCompListener (s : HState) : LTag → HState
  | LTag.defaultComp => { s with events := s.events ++ [Emit.arpCompleteEv] }
  | LTag.hybridComp =>
    if s.pingInProgress.length = 0 ∧ s.pingQueue.length = 0 then
      checkAndEmitDevicesInfos
        { s with events := s.events ++ [Emit.arpCompleteEv], arpScanComplete := true }
    else { s with events := s.events ++ [Emit.arpCompleteEv], arpScanComplete := true }
  | _ => s

/-- The `pingHost` callback prior to its `await this.deviceInfos(...)`
(src/index.js lines 584-587): drop the address from the in-flight set and
start the enrichment with `knownMAC = arpDeviceMap.get(ip) || mac`. -/
def stepPingReply (s : HState) (ip : String) (error : Bool) : HState :=
  match popFirst ip s.outstanding with
  | none => s
  | some (mac, rest) =>
    { s with
      outstanding := rest
      pingInProgress := s.pingInProgress.erase ip
      pendingEnrich := s.pendingEnrich ++ [(ip, jsOr (mapGet s.arpDeviceMap ip) mac, error)] }

/-- Resumption of the `pingHost` callback after `deviceInfos` settles
(src/index.js lines 589-616): record the completed device, emit the
per-device events, then `launchNextPing()` and
`checkAndEmitDevicesInfos()`. -/
def stepEnrichDone (s : HState) (ip : String) (hostname : Option String) (t : Nat) : HState :=
  match popFirst ip s.pendingEnrich with
  | none => s
  | some ((mac, error), rest) =>
    let dev : Device := { name := hostname, ip := ip, mac := mac, respondsToPing := !error }
    let s1 :=
      { s with
        pendingEnrich := rest
        pingCompleted := mapSet s.pingCompleted ip dev
        events := s.events ++ [Emit.deviceInfos dev] ++
          (if error = false then [Emit.scanResponse ip] else []) }
    checkAndEmitDevicesInfos (launchNextPing s1 t)

/-- A `setTimeout` scheduled by `launchNextPing` fires: it invokes
`executePing` directly (src/index.js lines 641-643). -/
def stepTimerFire (s : HState) (t : Nat) : HState :=
  match s.pendingTimers with
  | [] => s
  | _ :: rest => executePing { s with pendingTimers := rest } t

/-- The `catch` block of `startHybridScan` (src/index.js lines 704-718):
close the shared session, restore the default ARP listeners, and reject
with the wrapped discovery error. -/
def stepArpFail (s : HState) (msg : String) : HState :=
  { s with
    sessionClosed := true
    respListeners := [LTag.defaultResp]
    compListeners := [LTag.defaultComp]
    rejected := some ("ARP scan failed, error: " ++ msg)
    arpFailed := true }

/-- Process one environment event. -/
def step (s : HState) : Ev → HState
  | Ev.arpResp ip mac t =>
    s.respListeners.foldl (fun st tag => runRespListener ip mac t st tag) { s with clock := t }
  | Ev.arpComplete t =>
    s.compListeners.foldl (fun st tag => runCompListener st tag)
      { s with clock := t, arpDone := true }
  | Ev.arpFail msg t => stepArpFail { s with clock := t } msg
  | Ev.pingReply ip error t => stepPingReply { s with clock := t } ip error
  | Ev.enrichDone ip hostname t => stepEnrichDone { s with clock := t } ip hostname t
  | Ev.timerFire t => stepTimerFire { s with clock := t } t

/-- Timestamp of an event. -/
def evTime : Ev → Nat
  | Ev.arpResp _ _ t => t
  | Ev.arpComplete t => t
  | Ev.arpFail _ t => t
  | Ev.pingReply _ _ t => t
  | Ev.enrichDone _ _ t => t
  | Ev.timerFire t => t

/-- Whether an event can actually occur in a state: probe replies need an
outstanding callback, enrichment completions need a pending enrichment,
timer firings need a scheduled timer whose due time has passed, the single
discovery stream emits responses before at most one completion or failure,
and wall-clock time never decreases. -/
def okEv (s : HState) : Ev → Bool
  | Ev.arpResp _ _ t => !s.arpDone && !s.arpFailed && decide (s.clock ≤ t)
  | Ev.arpComplete t => !s.arpDone && !s.arpFailed && decide (s.clock ≤ t)
  | Ev.arpFail _ t => !s.arpDone && !s.arpFailed && decide (s.clock ≤ t)
  | Ev.pingReply ip _ t => (popFirst ip s.outstanding).isSome && decide (s.clock ≤ t)
  | Ev.enrichDone ip _ t => (popFirst ip s.pendingEnrich).isSome && decide (s.clock ≤ t)
  | Ev.timerFire t =>
    match s.pendingTimers with
    | [] => false
    | d :: _ => decide (d ≤ t) && decide (s.clock ≤ t)

/-- Run a list of events. -/
def runFrom (s : HState) : List Ev → HState
  | [] => s
  | e :: rest => runFrom (step s e) rest

/-- A trace is valid when every event can occur in the state it meets. -/
def validRun (s : HState) : List Ev → Bool
  | [] => true
  | e :: rest => okEv s e && validRun (step s e) rest

/-- State at the start of a hybrid scan run, right after `startHybridScan`
initialised its locals (src/index.js lines 497-506) and swapped the ARP
listeners to the run-owned pair (lines 691-694).  `interval` is the
resolved pacing parameter. -/
def initState (interval : Nat) : HState :=
  { interval := interval
    pingQueue := []
    pingInProgress := []
    pingCompleted := []
    arpDeviceMap := []
    lastPingTime := 0
    arpScanComplete := false
    pendingTimers := []
    outstanding := []
    pendingEnrich := []
    respListeners := [LTag.hybridResp]
    compListeners := [LTag.hybridComp]
    sessionClosed := false
    rejected := none
    arpDone := false
    arpFailed := false
    clock := 0
    events := []
    dispatchLog := [] }

/-- Recognise an `EVENT_DEVICES_INFOS` emission. -/
def isDevicesInfos : Emit → Bool
  | Emit.devicesInfos _ => true
  | _ => false

/-- Recognise an `EVENT_SCAN_COMPLETE` emission. -/
def isScanComplete : Emit → Bool
  | Emit.scanComplete _ => true
  | _ => false

/-- Number of `EVENT_DEVICES_INFOS` emissions so far. -/
def diCount (evts : List Emit) : Nat := evts.countP isDevicesInfos

/-- Number of `EVENT_SCAN_COMPLETE` emissions so far. -/
def scCount (evts : List Emit) : Nat := evts.countP isScanComplete

/-- The completion predicate of the spec: discovery phase done, no probe
in flight, no probe pending. -/
def readyB (s : HState) : Bool :=
  s.arpScanComplete && s.pingInProgress.isEmpty && s.pingQueue.isEmpty

/-- The two points at which `checkAndEmitDevicesInfos` is evaluated: after
a probe completion (once its enrichment settles) and at discovery
completion. -/
def isEvalPoint : Ev → Bool
  | Ev.arpComplete _ => true
  | Ev.enrichDone _ _ _ => true
  | _ => false

/-- Last `EVENT_DEVICES_INFOS` payload in an emission log. -/
def lastInventory (evts : List Emit) : Option (List Device) :=
  evts.foldl
    (fun acc e => match e with | Emit.devicesInfos ds => some ds | _ => acc) none

/-- Last `EVENT_SCAN_COMPLETE` payload in an emission log. -/
def lastScanReport (evts : List Emit) : Option ScanReport :=
  evts.foldl
    (fun acc e => match e with | Emit.scanComplete r => some r | _ => acc) none

/-- The listener pair installed by the `LanDiscovery` constructor: this is
the pre-run subscription state of `scannerARP`. -/
def preRunRespListeners : List LTag := [LTag.defaultResp]

/-- The complete-listener installed by the `LanDiscovery` constructor. -/
def preRunCompListeners : List LTag := [LTag.defaultComp]

/-- The state produced by the emitting branch of
`checkAndEmitDevicesInfos`: session closed, default listeners restored,
completion summary and inventory appended. -/
def emitRecord (s : HState) : HState :=
  { s with
    sessionClosed := true
    respListeners := [LTag.defaultResp]
    compListeners := [LTag.defaultComp]
    events := s.events ++
      [Emit.scanComplete
        { ipArray := (sortedCompleted s).map (·.ip)
          scanCount := (sortedCompleted s).length
          scanTimeMS := 0
          scanAverageMS := 0 },
       Emit.devicesInfos (sortedCompleted s)] }

/-- The components of the run state that the dispatch path
(`executePing`, `launchNextPing`, `schedulePing`, probe replies, timers)
never changes: the emission counts of the two finalization events, the
listener lists, the two phase flags, and the failure artefacts. -/
structure Calm (s s2 : HState) : Prop where
  di : diCount s2.events = diCount s.events
  sc : scCount s2.events = scCount s.events
  resp : s2.respListeners = s.respListeners
  comp : s2.compListeners = s.compListeners
  flag : s2.arpScanComplete = s.arpScanComplete
  failed : s2.arpFailed = s.arpFailed
  done : s2.arpDone = s.arpDone
  closed : s2.sessionClosed = s.sessionClosed
  rej : s2.rejected = s.rejected

/-- Invariant of every reachable run state: the discovery-done flag is
only set after a completion event; inventories are only emitted after the
flag is set; a failed run has a false flag, a closed session and the
wrapped rejection; and the listener lists are the hybrid pair before exit
and the default pair after emission or failure. -/
structure Inv (s : HState) : Prop where
  flag_done : s.arpScanComplete = true → s.arpDone = true
  di_flag : 0 < diCount s.events → s.arpScanComplete = true
  sc_flag : 0 < scCount s.events → s.arpScanComplete = true
  failed_flag : s.arpFailed = true → s.arpScanComplete = false
  failed_clean : s.arpFailed = true →
    s.sessionClosed = true ∧ ∃ m, s.rejected = some ("ARP scan failed, error: " ++ m)
  listeners :
    s.respListeners = [LTag.hybridResp] ∧ s.compListeners = [LTag.hybridComp]
        ∧ diCount s.events = 0 ∧ s.arpFailed = false
      ∨ s.respListeners = [LTag.defaultResp] ∧ s.compListeners = [LTag.defaultComp]
        ∧ (0 < diCount s.events ∨ s.arpFailed = true)

/-- Paced run (interval 100): one address is dispatched, then the same
second address is reported twice while the first probe is still in
flight. -/
def c2trace : List Ev :=
  [Ev.arpResp "192.168.1.9" "00-00-00-00-00-09" 1000,
   Ev.arpResp "192.168.1.7" "m1" 1010,
   Ev.arpResp "192.168.1.7" "m2" 1020]

/-- Paced run (interval 100) in which a deferred dispatch timer and a
timer created by a later discovery response both become due at t = 1100. -/
def c4trace : List Ev :=
  [Ev.arpResp "192.168.1.10" "aa" 1000,
   Ev.arpResp "192.168.1.11" "bb" 1010,
   Ev.pingReply "192.168.1.10" false 1040,
   Ev.enrichDone "192.168.1.10" (some "host10") 1050,
   Ev.arpResp "192.168.1.12" "cc" 1060,
   Ev.timerFire 1100,
   Ev.timerFire 1100]

/-- Unpaced run that discovers one host at t = 1000 and finalises at
t = 1500. -/
def c7trace : List Ev :=
  [Ev.arpResp "10.0.0.8" "m8" 1000,
   Ev.arpComplete 1005,
   Ev.pingReply "10.0.0.8" false 1400,
   Ev.enrichDone "10.0.0.8" (some "h8") 1500]

/-- Run in which the same address is rediscovered with a different link
address while its probe is in flight. -/
def c8trace : List Ev :=
  [Ev.arpResp "10.0.0.7" "m1" 1000,
   Ev.arpResp "10.0.0.7" "m2" 1010]

/-- Unpaced run whose hosts are discovered (and complete) in the order
10.0.0.23, 10.0.0.5, 10.0.0.100 but resolve in a scrambled order. -/
def c3trace : List Ev :=
  [Ev.arpResp "10.0.0.23" "a1" 10,
   Ev.arpResp "10.0.0.5" "a2" 11,
   Ev.arpResp "10.0.0.100" "a3" 12,
   Ev.arpComplete 13,
   Ev.pingReply "10.0.0.100" false 20,
   Ev.pingReply "10.0.0.23" false 21,
   Ev.pingReply "10.0.0.5" false 22,
   Ev.enrichDone "10.0.0.100" none 30,
   Ev.enrichDone "10.0.0.23" none 31,
   Ev.enrichDone "10.0.0.5" none 32]

/-- Completed devices for the deterministic-ordering example, listed in a
different arrival order than `c3trace` produces. -/
def c3devices : List Device :=
  [{ name := none, ip := "10.0.0.23", mac := "a1", respondsToPing := true },
   { name := none, ip := "10.0.0.5", mac := "a2", respondsToPing := true },
   { name := none, ip := "10.0.0.100", mac := "a3", respondsToPing := true }]

end LanDiscovery

namespace ScannerModel

/-- A JavaScript number restricted to the values `buildScanResult` can
produce: an integer, positive infinity (positive elapsed time divided by
zero), or NaN (zero divided by zero). -/
inductive JsNum where
  | num (n : Nat)
  | inf
  | nan
deriving DecidableEq, Repr

/-- Whether a `JsNum` is finite. -/
def JsNum.isFinite : JsNum → Bool
  | JsNum.num _ => true
  | _ => false

/-- `Math.round(a / b)` on non-negative numbers, with the JavaScript
behaviour of division by zero. -/
def jsRoundDiv (a b : Nat) : JsNum :=
  if b = 0 then (if a = 0 then JsNum.nan else JsNum.inf)
  else JsNum.num ((2 * a + b) / (2 * b))

/-- Summary produced by `Scanner.buildScanResult`. -/
structure ScanResult where
  ipArray : List String
  scanCount : Option Nat
  scanTimeMS : Nat
  scanAverageMS : JsNum
deriving DecidableEq, Repr

/-- Scanner base-class state relevant to `buildScanResult`
(scanner.js): the runtime constructor name, the target list passed to
`start` (possibly null) and the accumulated results. -/
structure ScannerState where
  constructorName : String
  ipArrayToScan : Option (List String)
  ipArrayResults : List String
deriving DecidableEq, Repr

/-- `Scanner.buildScanResult` (scanner.js lines 45-58):
`scanCount = ipArrayToScan ? ipArrayToScan.length : null`, overwritten by
`ipArrayResults.length` for every class except `ScannerARP`; the average
divides the elapsed time by `scanCount`. -/
def buildScanResult (s : ScannerState) (executionTimeMS : Nat) : ScanResult :=
  let scanCount0 : Option Nat := s.ipArrayToScan.map List.length
  let scanCount : Option Nat :=
    if s.constructorName ≠ "ScannerARP" then some s.ipArrayResults.length else scanCount0
  { ipArray := s.ipArrayResults
    scanCount := scanCount
    scanTimeMS := executionTimeMS
    scanAverageMS := jsRoundDiv executionTimeMS (scanCount.getD 0) }

/-- Scanner state of a `ScannerARP` after `start` ran
`super.start({ ipArrayToScan: [] })` (scanner-tcp.js line 436) and pushed
each discovered address into `ipArrayResults`. -/
def arpScannerState (results : List String) : ScannerState :=
  { constructorName := "ScannerARP"
    ipArrayToScan := some []
    ipArrayResults := results }

end ScannerModel

namespace ParamModel

/-- `objParam.timeout || 3000` (src/index.js line 481): any falsy value,
including an explicit 0, selects the default. -/
def resolveTimeout (t : Option Int) : Int :=
  match t with
  | some v => if v = 0 then 3000 else v
  | none => 3000

/-- `objParam.interval !== undefined ? objParam.interval : 0`
(src/index.js line 483): only an absent value selects the default. -/
def resolveInterval (i : Option Int) : Int :=
  match i with
  | some v => v
  | none => 0

end ParamModel

namespace LanDiscovery

/-- Claim C9: for every ARP scan run that completes, the summary built by
`Scanner.buildScanResult` has `scanCount = 0` (the `ScannerARP` branch
keeps `ipArrayToScan.length`, and `ScannerARP.start` initialised the base
class with an empty target list), so `scanAverageMS` divides the elapsed
time by zero and is non-finite, regardless of how many devices were
discovered. -/
theorem C9_arp_scan_count_zero (results : List String) (elapsed : Nat) :
    (ScannerModel.buildScanResult (ScannerModel.arpScannerState results) elapsed).scanCount
        = some 0
      ∧ (ScannerModel.buildScanResult
          (ScannerModel.arpScannerState results) elapsed).scanAverageMS.isFinite = false := by
  constructor
  · rfl
  · simp only [ScannerModel.buildScanResult, ScannerModel.arpScannerState,
      ScannerModel.jsRoundDiv]
    by_cases h : elapsed = 0 <;> simp [h, ScannerModel.JsNum.isFinite]

/-- Claim C10: `startHybridScan` silently replaces `timeout: 0` with the
default 3000 (falsy check), while `interval: 0` is honoured as 0
(defaulted only when undefined) — the two zeros are treated
asymmetrically. -/
theorem C10_timeout_interval_asymmetry :
    ParamModel.resolveTimeout (some 0) = 3000
      ∧ ParamModel.resolveInterval (some 0) = 0
      ∧ ParamModel.resolveTimeout none = 3000
      ∧ ParamModel.resolveInterval none = 0
      ∧ ParamModel.resolveTimeout (some 100) = 100
      ∧ ParamModel.resolveInterval (some 100) = 100 := by
  refine ⟨rfl, rfl, rfl, rfl, ?_, rfl⟩
  simp [ParamModel.resolveTimeout]

theorem ordInsert_length {α : Type} (le : α → α → Bool) (a : α) (l : List α) :
    (ordInsert le a l).length = l.length + 1 := by
  induction l with
  | nil => rfl
  | cons b l ih =>
    unfold ordInsert
    split
    · rfl
    · simp [ih]

theorem insSort_length {α : Type} (le : α → α → Bool) (l : List α) :
    (insSort le l).length = l.length := by
  induction l with
  | nil => rfl
  | cons a l ih => simp [insSort, ordInsert_length, ih]

theorem segCmp_cons (a b : Nat) (as bs : List Nat) :
    segCmp (a :: as) (b :: bs) = if a = b then segCmp as bs else (a : Int) - b := by
  by_cases h : a = b <;> simp [segCmp, h]

theorem segCmp_anti (as : List Nat) : ∀ (bs : List Nat), segCmp bs as = - segCmp as bs := by
  induction as with
  | nil =>
    intro bs
    cases bs <;> simp [segCmp]
  | cons a as ih =>
    intro bs
    cases bs with
    | nil => simp [segCmp]
    | cons b bs =>
      rw [segCmp_cons, segCmp_cons]
      by_cases h : a = b
      · rw [if_pos h, if_pos h.symm, ih]
      · rw [if_neg h, if_neg (fun hh => h hh.symm)]
        omega

theorem segCmp_total (as bs : List Nat) : segCmp as bs ≤ 0 ∨ segCmp bs as ≤ 0 := by
  rcases le_or_lt (segCmp as bs) 0 with h | h
  · exact Or.inl h
  · right
    rw [segCmp_anti]
    omega

theorem segCmp_trans (as : List Nat) : ∀ (bs cs : List Nat),
    as.length = bs.length → bs.length = cs.length →
    segCmp as bs ≤ 0 → segCmp bs cs ≤ 0 → segCmp as cs ≤ 0 := by
  induction as with
  | nil =>
    intro bs cs hab hbc h1 h2
    cases bs with
    | nil =>
      cases cs with
      | nil => exact h1
      | cons c cs => simp at hbc
    | cons b bs => simp at hab
  | cons a as ih =>
    intro bs cs hab hbc h1 h2
    cases bs with
    | nil => simp at hab
    | cons b bs =>
      cases cs with
      | nil => simp at hbc
      | cons c cs =>
        simp only [List.length_cons, add_left_inj] at hab hbc
        rw [segCmp_cons] at h1 h2 ⊢
        by_cases hb : a = b
        · rw [if_pos hb] at h1
          by_cases hc : b = c
          · rw [if_pos hc] at h2
            rw [if_pos (hb.trans hc)]
            exact ih bs cs hab hbc h1 h2
          · rw [if_neg hc] at h2
            subst hb
            rw [if_neg hc]
            exact h2
        · rw [if_neg hb] at h1
          by_cases hc : b = c
          · subst hc
            rw [if_neg hb]
            exact h1
          · rw [if_neg hc] at h2
            by_cases hac : a = c
            · exfalso
              omega
            · rw [if_neg hac]
              omega

theorem mem_ordInsert {α : Type} (le : α → α → Bool) (a x : α) (l : List α) :
    x ∈ ordInsert le a l ↔ x = a ∨ x ∈ l := by
  induction l with
  | nil => simp [ordInsert]
  | cons b l ih =>
    unfold ordInsert
    split
    · simp [List.mem_cons]
    · simp [List.mem_cons, ih]
      tauto

theorem mem_insSort {α : Type} (le : α → α → Bool) (x : α) (l : List α) :
    x ∈ insSort le l ↔ x ∈ l := by
  induction l with
  | nil => simp [insSort]
  | cons a l ih => simp [insSort, mem_ordInsert, ih]

theorem pairwise_ordInsert {α : Type} (le : α → α → Bool) (V : α → Prop)
    (htot : ∀ x y, V x → V y → le x y = true ∨ le y x = true)
    (htrans : ∀ x y z, V x → V y → V z → le x y = true → le y z = true → le x z = true)
    (a : α) (l : List α) (hVa : V a) (hVl : ∀ x ∈ l, V x)
    (hl : List.Pairwise (fun x y => le x y = true) l) :
    List.Pairwise (fun x y => le x y = true) (ordInsert le a l) := by
  induction l with
  | nil => simp [ordInsert]
  | cons b l ih =>
    rcases List.pairwise_cons.mp hl with ⟨hb, hl2⟩
    unfold ordInsert
    split
    · rename_i hab
      refine List.pairwise_cons.mpr ⟨?_, hl⟩
      intro x hx
      rcases List.mem_cons.mp hx with rfl | hx
      · exact hab
      · exact htrans a b x hVa (hVl b (by simp)) (hVl x (by simp [hx])) hab (hb x hx)
    · rename_i hab
      refine List.pairwise_cons.mpr ⟨?_, ih (fun x hx => hVl x (by simp [hx])) hl2⟩
      intro x hx
      rcases (mem_ordInsert le a x l).mp hx with rfl | hx
      · rcases htot x b hVa (hVl b (by simp)) with h | h
        · exact absurd h hab
        · exact h
      · exact hb x hx

theorem pairwise_insSort {α : Type} (le : α → α → Bool) (V : α → Prop)
    (htot : ∀ x y, V x → V y → le x y = true ∨ le y x = true)
    (htrans : ∀ x y z, V x → V y → V z → le x y = true → le y z = true → le x z = true)
    (l : List α) (hVl : ∀ x ∈ l, V x) :
    List.Pairwise (fun x y => le x y = true) (insSort le l) := by
  induction l with
  | nil => simp [insSort]
  | cons a l ih =>
    unfold insSort
    refine pairwise_ordInsert le V htot htrans a (insSort le l) (hVl a (by simp)) ?_
      (ih (fun x hx => hVl x (by simp [hx])))
    intro x hx
    exact hVl x (by simp [(mem_insSort le x l).mp hx])

theorem devLe_total (a b : Device) : devLe a b = true ∨ devLe b a = true := by
  simp only [devLe, decide_eq_true_eq]
  exact segCmp_total _ _

theorem devLe_trans (a b c : Device) (ha : (ipSegs a.ip).length = 4)
    (hb : (ipSegs b.ip).length = 4) (hc : (ipSegs c.ip).length = 4)
    (h1 : devLe a b = true) (h2 : devLe b c = true) : devLe a c = true := by
  simp only [devLe, decide_eq_true_eq] at h1 h2 ⊢
  exact segCmp_trans _ _ _ (ha.trans hb.symm) (hb.trans hc.symm) h1 h2

/-- Claim C3: the emitted inventory is sorted by per-segment numeric
ascending comparison of addresses.  First conjunct: the sort used by
`checkAndEmitDevicesInfos` always yields a list pairwise ordered by the
numeric per-segment comparator (for well-formed dotted-quad addresses).
Second conjunct: a full machine run whose hosts complete in the order
10.0.0.100, 10.0.0.23, 10.0.0.5 emits them as 10.0.0.5, 10.0.0.23,
10.0.0.100 (numeric, not lexicographic).  Third conjunct: sorting the same
devices from a different arrival order gives the same inventory order. -/
theorem C3_deterministic_ordering :
    (∀ (l : List Device), (∀ d ∈ l, (ipSegs d.ip).length = 4) →
        List.Pairwise (fun a b => devLe a b = true) (insSort devLe l))
      ∧ (lastInventory (runFrom (initState 0) c3trace).events).map (fun ds => ds.map Device.ip)
          = some ["10.0.0.5", "10.0.0.23", "10.0.0.100"]
      ∧ (insSort devLe c3devices).map Device.ip
          = ["10.0.0.5", "10.0.0.23", "10.0.0.100"]
      ∧ validRun (initState 0) c3trace = true := by
  refine ⟨?_, by decide, by decide, by decide⟩
  intro l hV
  exact pairwise_insSort devLe (fun d => (ipSegs d.ip).length = 4)
    (fun x y _ _ => devLe_total x y)
    (fun x y z hx hy hz => devLe_trans x y z hx hy hz)
    l hV

theorem C3_witness :
    List.Pairwise (fun a b => devLe a b = true) (insSort devLe c3devices) :=
  C3_deterministic_ordering.1 c3devices (by decide)

theorem executePing_arpDeviceMap (s : HState) (t : Nat) :
    (executePing s t).arpDeviceMap = s.arpDeviceMap := by
  unfold executePing
  split <;> rfl

theorem launchNextPing_arpDeviceMap (s : HState) (t : Nat) :
    (launchNextPing s t).arpDeviceMap = s.arpDeviceMap := by
  unfold launchNextPing
  repeat' split
  all_goals first | rfl | exact executePing_arpDeviceMap s t

theorem executePing_events (s : HState) (t : Nat) : (executePing s t).events = s.events := by
  unfold executePing
  split <;> rfl

theorem executePing_arpScanComplete (s : HState) (t : Nat) :
    (executePing s t).arpScanComplete = s.arpScanComplete := by
  unfold executePing
  split <;> rfl

theorem executePing_arpFailed (s : HState) (t : Nat) :
    (executePing s t).arpFailed = s.arpFailed := by
  unfold executePing
  split <;> rfl

theorem executePing_arpDone (s : HState) (t : Nat) :
    (executePing s t).arpDone = s.arpDone := by
  unfold executePing
  split <;> rfl

theorem executePing_respListeners (s : HState) (t : Nat) :
    (executePing s t).respListeners = s.respListeners := by
  unfold executePing
  split <;> rfl

theorem executePing_compListeners (s : HState) (t : Nat) :
    (executePing s t).compListeners = s.compListeners := by
  unfold executePing
  split <;> rfl

theorem executePing_sessionClosed (s : HState) (t : Nat) :
    (executePing s t).sessionClosed = s.sessionClosed := by
  unfold executePing
  split <;> rfl

theorem executePing_rejected (s : HState) (t : Nat) :
    (executePing s t).rejected = s.rejected := by
  unfold executePing
  split <;> rfl

theorem launchNextPing_events (s : HState) (t : Nat) :
    (launchNextPing s t).events = s.events := by
  unfold launchNextPing
  repeat' split
  all_goals first | rfl | exact executePing_events s t

theorem launchNextPing_arpScanComplete (s : HState) (t : Nat) :
    (launchNextPing s t).arpScanComplete = s.arpScanComplete := by
  unfold launchNextPing
  repeat' split
  all_goals first | rfl | exact executePing_arpScanComplete s t

theorem launchNextPing_arpFailed (s : HState) (t : Nat) :
    (launchNextPing s t).arpFailed = s.arpFailed := by
  unfold launchNextPing
  repeat' split
  all_goals first | rfl | exact executePing_arpFailed s t

theorem launchNextPing_arpDone (s : HState) (t : Nat) :
    (launchNextPing s t).arpDone = s.arpDone := by
  unfold launchNextPing
  repeat' split
  all_goals first | rfl | exact executePing_arpDone s t

theorem launchNextPing_respListeners (s : HState) (t : Nat) :
    (launchNextPing s t).respListeners = s.respListeners := by
  unfold launchNextPing
  repeat' split
  all_goals first | rfl | exact executePing_respListeners s t

theorem launchNextPing_compListeners (s : HState) (t : Nat) :
    (launchNextPing s t).compListeners = s.compListeners := by
  unfold launchNextPing
  repeat' split
  all_goals first | rfl | exact executePing_compListeners s t

theorem launchNextPing_sessionClosed (s : HState) (t : Nat) :
    (launchNextPing s t).sessionClosed = s.sessionClosed := by
  unfold launchNextPing
  repeat' split
  all_goals first | rfl | exact executePing_sessionClosed s t

theorem launchNextPing_rejected (s : HState) (t : Nat) :
    (launchNextPing s t).rejected = s.rejected := by
  unfold launchNextPing
  repeat' split
  all_goals first | rfl | exact executePing_rejected s t

theorem diCount_append (a b : List Emit) : diCount (a ++ b) = diCount a + diCount b := by
  simp [diCount, List.countP_append]

theorem scCount_append (a b : List Emit) : scCount (a ++ b) = scCount a + scCount b := by
  simp [scCount, List.countP_append]

theorem calm_refl (s : HState) : Calm s s :=
  ⟨rfl, rfl, rfl, rfl, rfl, rfl, rfl, rfl, rfl⟩

theorem calm_trans {s1 s2 s3 : HState} (h1 : Calm s1 s2) (h2 : Calm s2 s3) : Calm s1 s3 :=
  ⟨h2.di.trans h1.di, h2.sc.trans h1.sc, h2.resp.trans h1.resp, h2.comp.trans h1.comp,
   h2.flag.trans h1.flag, h2.failed.trans h1.failed, h2.done.trans h1.done,
   h2.closed.trans h1.closed, h2.rej.trans h1.rej⟩

theorem calm_clock (s : HState) (t : Nat) : Calm s { s with clock := t } :=
  ⟨rfl, rfl, rfl, rfl, rfl, rfl, rfl, rfl, rfl⟩

theorem calm_executePing (s : HState) (t : Nat) : Calm s (executePing s t) := by
  unfold executePing
  split
  · exact calm_refl s
  · exact ⟨rfl, rfl, rfl, rfl, rfl, rfl, rfl, rfl, rfl⟩

theorem calm_launchNextPing (s : HState) (t : Nat) : Calm s (launchNextPing s t) := by
  unfold launchNextPing
  repeat' split
  all_goals first
    | exact calm_refl s
    | exact calm_executePing s t
    | exact ⟨rfl, rfl, rfl, rfl, rfl, rfl, rfl, rfl, rfl⟩

theorem calm_schedulePing (s : HState) (ip mac : String) (t : Nat) :
    Calm s (schedulePing s ip mac t) := by
  unfold schedulePing
  split
  · exact calm_refl s
  · refine calm_trans ?_ (calm_launchNextPing _ t)
    exact ⟨rfl, rfl, rfl, rfl, rfl, rfl, rfl, rfl, rfl⟩

theorem calm_runRespListener (ip mac : String) (t : Nat) (s : HState) (tag : LTag) :
    Calm s (runRespListener ip mac t s tag) := by
  cases tag with
  | defaultResp =>
    refine ⟨?_, ?_, rfl, rfl, rfl, rfl, rfl, rfl, rfl⟩ <;>
      simp [runRespListener, diCount, scCount, List.countP_append, List.countP_cons,
        List.countP_nil, isDevicesInfos, isScanComplete]
  | hybridResp =>
    simp only [runRespListener]
    refine calm_trans ?_ (calm_schedulePing _ ip mac t)
    refine ⟨?_, ?_, rfl, rfl, rfl, rfl, rfl, rfl, rfl⟩ <;>
      simp [diCount, scCount, List.countP_append, List.countP_cons, List.countP_nil,
        isDevicesInfos, isScanComplete]
  | defaultComp => exact calm_refl s
  | hybridComp => exact calm_refl s

theorem calm_foldResp (ip mac : String) (t : Nat) (tags : List LTag) :
    ∀ (s : HState), Calm s (tags.foldl (fun st tag => runRespListener ip mac t st tag) s) := by
  induction tags with
  | nil =>
    intro s
    exact calm_refl s
  | cons tag tags ih =>
    intro s
    simp only [List.foldl_cons]
    exact calm_trans (calm_runRespListener ip mac t s tag) (ih _)

theorem calm_stepPingReply (s : HState) (ip : String) (err : Bool) :
    Calm s (stepPingReply s ip err) := by
  unfold stepPingReply
  split
  · exact calm_refl s
  · exact ⟨rfl, rfl, rfl, rfl, rfl, rfl, rfl, rfl, rfl⟩

theorem calm_stepTimerFire (s : HState) (t : Nat) : Calm s (stepTimerFire s t) := by
  unfold stepTimerFire
  split
  · exact calm_refl s
  · refine calm_trans ?_ (calm_executePing _ t)
    exact ⟨rfl, rfl, rfl, rfl, rfl, rfl, rfl, rfl, rfl⟩

theorem checkAndEmit_eq (s : HState) :
    checkAndEmitDevicesInfos s = if readyB s = true then emitRecord s else s := by
  by_cases h1 : s.arpScanComplete = true
  · by_cases h2 : s.pingInProgress = []
    · by_cases h3 : s.pingQueue = []
      · rw [if_pos (by simp [readyB, h1, h2, h3])]
        unfold checkAndEmitDevicesInfos
        rw [if_neg (by simp [h1]), if_neg (by simp [h2, h3])]
        rfl
      · rw [if_neg (by simp [readyB, List.isEmpty_iff, h3])]
        unfold checkAndEmitDevicesInfos
        rw [if_neg (by simp [h1]),
          if_pos (Or.inr (by simpa [List.length_pos] using h3))]
    · rw [if_neg (by simp [readyB, List.isEmpty_iff, h2])]
      unfold checkAndEmitDevicesInfos
      rw [if_neg (by simp [h1]),
        if_pos (Or.inl (by simpa [List.length_pos] using h2))]
  · have h1b : s.arpScanComplete = false := by
      revert h1
      cases s.arpScanComplete <;> simp
    rw [if_neg (by simp [readyB, h1b])]
    unfold checkAndEmitDevicesInfos
    rw [if_pos h1b]

theorem emit_diCount (s : HState) : diCount (emitRecord s).events = diCount s.events + 1 := by
  simp [emitRecord, diCount, List.countP_append, List.countP_cons, List.countP_nil,
    isDevicesInfos]

theorem emit_scCount (s : HState) : scCount (emitRecord s).events = scCount s.events + 1 := by
  simp [emitRecord, scCount, List.countP_append, List.countP_cons, List.countP_nil,
    isScanComplete]

theorem emit_ready (s : HState) : readyB (emitRecord s) = readyB s := rfl

theorem inv_calm {s s2 : HState} (h : Inv s) (hc : Calm s s2) : Inv s2 := by
  refine ⟨?_, ?_, ?_, ?_, ?_, ?_⟩
  · rw [hc.flag, hc.done]
    exact h.flag_done
  · rw [hc.di, hc.flag]
    exact h.di_flag
  · rw [hc.sc, hc.flag]
    exact h.sc_flag
  · rw [hc.failed, hc.flag]
    exact h.failed_flag
  · rw [hc.failed, hc.closed, hc.rej]
    exact h.failed_clean
  · rw [hc.resp, hc.comp, hc.di, hc.failed]
    exact h.listeners

theorem inv_init (itv : Nat) : Inv (initState itv) := by
  refine ⟨?_, ?_, ?_, ?_, ?_, Or.inl ⟨rfl, rfl, rfl, rfl⟩⟩ <;>
    intro h <;> simp [initState, diCount, scCount] at h

theorem inv_emit (s2 : HState) (hflag : s2.arpScanComplete = true)
    (hdone : s2.arpDone = true) (hfail : s2.arpFailed = false) :
    Inv (emitRecord s2) := by
  refine ⟨fun _ => hdone, fun _ => hflag, fun _ => hflag, ?_, ?_,
    Or.inr ⟨rfl, rfl, Or.inl ?_⟩⟩
  · intro h
    rw [show (emitRecord s2).arpFailed = s2.arpFailed from rfl, hfail] at h
    simp at h
  · intro h
    rw [show (emitRecord s2).arpFailed = s2.arpFailed from rfl, hfail] at h
    simp at h
  · rw [emit_diCount]
    omega

theorem diCount_enrich (evts : List Emit) (dev : Device) (ip : String) (err : Bool) :
    diCount (evts ++ [Emit.deviceInfos dev] ++
        (if err = false then [Emit.scanResponse ip] else [])) = diCount evts := by
  cases err <;>
    simp [diCount, List.countP_append, List.countP_cons, List.countP_nil, isDevicesInfos]

theorem scCount_enrich (evts : List Emit) (dev : Device) (ip : String) (err : Bool) :
    scCount (evts ++ [Emit.deviceInfos dev] ++
        (if err = false then [Emit.scanResponse ip] else [])) = scCount evts := by
  cases err <;>
    simp [scCount, List.countP_append, List.countP_cons, List.countP_nil, isScanComplete]

theorem inv_checkAndEmit {s s2 : HState} (hInv : Inv s) (hcalm : Calm s s2) :
    Inv (checkAndEmitDevicesInfos s2) := by
  rw [checkAndEmit_eq]
  by_cases hready : readyB s2 = true
  · rw [if_pos hready]
    have hflag2 : s2.arpScanComplete = true := by
      simp only [readyB, Bool.and_eq_true] at hready
      exact hready.1.1
    have hflagS : s.arpScanComplete = true := hcalm.flag.symm.trans hflag2
    have hfailS : s.arpFailed = false := by
      cases hfs : s.arpFailed
      · rfl
      · have h2 := hInv.failed_flag hfs
        rw [hflagS] at h2
        simp at h2
    exact inv_emit s2 hflag2 (hcalm.done.trans (hInv.flag_done hflagS))
      (hcalm.failed.trans hfailS)
  · rw [if_neg hready]
    exact inv_calm hInv hcalm

theorem inv_step (s : HState) (e : Ev) (hInv : Inv s) (hok : okEv s e = true) :
    Inv (step s e) := by
  cases e with
  | arpResp ip mac t =>
    refine inv_calm hInv ?_
    simp only [step]
    exact calm_trans (calm_clock s t) (calm_foldResp ip mac t s.respListeners _)
  | pingReply ip err t =>
    refine inv_calm hInv ?_
    simp only [step]
    exact calm_trans (calm_clock s t) (calm_stepPingReply _ ip err)
  | timerFire t =>
    refine inv_calm hInv ?_
    simp only [step]
    exact calm_trans (calm_clock s t) (calm_stepTimerFire _ t)
  | arpFail msg t =>
    simp only [okEv, Bool.and_eq_true, Bool.not_eq_true', decide_eq_true_eq] at hok
    obtain ⟨⟨hdone, hfail⟩, _⟩ := hok
    have hflag : s.arpScanComplete = false := by
      cases hfs : s.arpScanComplete
      · rfl
      · have h2 := hInv.flag_done hfs
        rw [hdone] at h2
        exact h2.symm
    simp only [step, stepArpFail]
    refine ⟨?_, ?_, ?_, fun _ => hflag, fun _ => ⟨rfl, ⟨msg, rfl⟩⟩,
      Or.inr ⟨rfl, rfl, Or.inr rfl⟩⟩
    · intro h
      have h2 : s.arpScanComplete = true := h
      rw [hflag] at h2
      simp at h2
    · intro h
      exact hInv.di_flag h
    · intro h
      exact hInv.sc_flag h
  | arpComplete t =>
    simp only [okEv, Bool.and_eq_true, Bool.not_eq_true', decide_eq_true_eq] at hok
    obtain ⟨⟨hdone, hfail⟩, _⟩ := hok
    simp only [step]
    rcases hInv.listeners with ⟨hr, hcm, hdi0, hff⟩ | ⟨hr, hcm, hor⟩
    · rw [hcm]
      simp only [List.foldl_cons, List.foldl_nil, runCompListener]
      split
      · rename_i hcond
        obtain ⟨hc1, hc2⟩ := hcond
        have e1 : s.pingInProgress = [] := List.length_eq_zero.mp hc1
        have e2 : s.pingQueue = [] := List.length_eq_zero.mp hc2
        rw [checkAndEmit_eq, if_pos (by simp [readyB, e1, e2])]
        exact inv_emit _ rfl rfl hfail
      · refine ⟨fun _ => rfl, fun _ => rfl, fun _ => rfl, ?_, ?_,
          Or.inl ⟨hr, rfl, ?_, hfail⟩⟩
        · intro h
          have h2 : s.arpFailed = true := h
          rw [hfail] at h2
          simp at h2
        · intro h
          have h2 : s.arpFailed = true := h
          rw [hfail] at h2
          simp at h2
        · show diCount (s.events ++ [Emit.arpCompleteEv]) = 0
          rw [diCount_append, hdi0]
          rfl
    · rw [hcm]
      simp only [List.foldl_cons, List.foldl_nil, runCompListener]
      refine ⟨fun _ => rfl, ?_, ?_, ?_, ?_, Or.inr ⟨hr, rfl, ?_⟩⟩
      · intro h
        apply hInv.di_flag
        have h2 : 0 < diCount (s.events ++ [Emit.arpCompleteEv]) := h
        rw [diCount_append] at h2
        simpa [diCount, List.countP_cons, List.countP_nil, isDevicesInfos] using h2
      · intro h
        apply hInv.sc_flag
        have h2 : 0 < scCount (s.events ++ [Emit.arpCompleteEv]) := h
        rw [scCount_append] at h2
        simpa [scCount, List.countP_cons, List.countP_nil, isScanComplete] using h2
      · intro h
        have h2 : s.arpFailed = true := h
        exact hInv.failed_flag h2
      · intro h
        have h2 : s.arpFailed = true := h
        exact hInv.failed_clean h2
      · rcases hor with h | h
        · left
          show 0 < diCount (s.events ++ [Emit.arpCompleteEv])
          rw [diCount_append]
          omega
        · right
          exact h
  | enrichDone ip hostname t =>
    simp only [step, stepEnrichDone]
    cases hpop : popFirst ip s.pendingEnrich with
    | none => simp [okEv, hpop] at hok
    | some pr =>
      obtain ⟨⟨mac, err⟩, rest⟩ := pr
      simp only [hpop]
      refine inv_checkAndEmit hInv ?_
      refine calm_trans ?_ (calm_launchNextPing _ t)
      exact ⟨diCount_enrich s.events _ ip err, scCount_enrich s.events _ ip err,
        rfl, rfl, rfl, rfl, rfl, rfl, rfl⟩

theorem inv_runFrom (tr : List Ev) :
    ∀ (s : HState), Inv s → validRun s tr = true → Inv (runFrom s tr) := by
  induction tr with
  | nil =>
    intro s h _
    exact h
  | cons e rest ih =>
    intro s h hv
    simp only [validRun, Bool.and_eq_true] at hv
    exact ih (step s e) (inv_step s e h hv.1) hv.2

theorem emit_iff_ready (s : HState) (e : Ev) (hInv : Inv s) (hok : okEv s e = true) :
    (diCount (step s e).events = diCount s.events + 1)
      ↔ (isEvalPoint e = true ∧ readyB (step s e) = true) := by
  cases e with
  | arpResp ip mac t =>
    have hc : Calm s (step s (Ev.arpResp ip mac t)) := by
      simp only [step]
      exact calm_trans (calm_clock s t) (calm_foldResp ip mac t s.respListeners _)
    rw [hc.di]
    simp [isEvalPoint]
  | pingReply ip err t =>
    have hc : Calm s (step s (Ev.pingReply ip err t)) := by
      simp only [step]
      exact calm_trans (calm_clock s t) (calm_stepPingReply _ ip err)
    rw [hc.di]
    simp [isEvalPoint]
  | timerFire t =>
    have hc : Calm s (step s (Ev.timerFire t)) := by
      simp only [step]
      exact calm_trans (calm_clock s t) (calm_stepTimerFire _ t)
    rw [hc.di]
    simp [isEvalPoint]
  | arpFail msg t =>
    rw [show (step s (Ev.arpFail msg t)).events = s.events from rfl]
    simp [isEvalPoint]
  | arpComplete t =>
    simp only [okEv, Bool.and_eq_true, Bool.not_eq_true', decide_eq_true_eq] at hok
    obtain ⟨⟨hdone, hfail⟩, _⟩ := hok
    simp only [step, isEvalPoint]
    rcases hInv.listeners with ⟨hr, hcm, hdi0, hff⟩ | ⟨hr, hcm, hor⟩
    · rw [hcm]
      simp only [List.foldl_cons, List.foldl_nil, runCompListener]
      split
      · rename_i hcond
        obtain ⟨hc1, hc2⟩ := hcond
        have e1 : s.pingInProgress = [] := List.length_eq_zero.mp hc1
        have e2 : s.pingQueue = [] := List.length_eq_zero.mp hc2
        rw [checkAndEmit_eq, if_pos (by simp [readyB, e1, e2])]
        refine iff_of_true ?_ ⟨trivial, ?_⟩
        · rw [emit_diCount]
          show diCount (s.events ++ [Emit.arpCompleteEv]) + 1 = diCount s.events + 1
          rw [diCount_append]
          simp [diCount, List.countP_cons, List.countP_nil, isDevicesInfos]
        · rw [emit_ready]
          simp [readyB, e1, e2]
      · rename_i hcond
        refine iff_of_false ?_ ?_
        · intro h
          have h2 : diCount (s.events ++ [Emit.arpCompleteEv]) = diCount s.events + 1 := h
          rw [diCount_append] at h2
          simp [diCount, List.countP_cons, List.countP_nil, isDevicesInfos] at h2
        · rintro ⟨_, hready⟩
          simp only [readyB, Bool.and_eq_true, List.isEmpty_iff] at hready
          exact hcond ⟨by simp [hready.1.2], by simp [hready.2]⟩
    · exfalso
      rcases hor with h | h
      · have h2 := hInv.flag_done (hInv.di_flag h)
        rw [hdone] at h2
        simp at h2
      · rw [hfail] at h
        simp at h
  | enrichDone ip hostname t =>
    simp only [step, stepEnrichDone, isEvalPoint]
    cases hpop : popFirst ip s.pendingEnrich with
    | none => simp [okEv, hpop] at hok
    | some pr =>
      obtain ⟨⟨mac, err⟩, rest⟩ := pr
      simp only [hpop]
      cases err with
      | false =>
        rw [checkAndEmit_eq]
        split
        · split
          · rename_i hready
            refine iff_of_true ?_ ⟨trivial, ?_⟩
            · rw [emit_diCount]
              simp [launchNextPing_events, diCount, List.countP_append, List.countP_cons,
                List.countP_nil, isDevicesInfos]
            · rw [emit_ready]
              exact hready
          · rename_i hready
            refine iff_of_false ?_ ?_
            · intro h
              have h2 := h
              simp [launchNextPing_events, diCount, List.countP_append, List.countP_cons,
                List.countP_nil, isDevicesInfos] at h2
            · rintro ⟨_, hr2⟩
              exact hready hr2
        · rename_i herr
          exact absurd rfl herr
      | true =>
        rw [checkAndEmit_eq]
        split
        · rename_i herr
          simp at herr
        · split
          · rename_i hready
            refine iff_of_true ?_ ⟨trivial, ?_⟩
            · rw [emit_diCount]
              simp [launchNextPing_events, diCount, List.countP_append, List.countP_cons,
                List.countP_nil, isDevicesInfos]
            · rw [emit_ready]
              exact hready
          · rename_i hready
            refine iff_of_false ?_ ?_
            · intro h
              have h2 := h
              simp [launchNextPing_events, diCount, List.countP_append, List.countP_cons,
                List.countP_nil, isDevicesInfos] at h2
            · rintro ⟨_, hr2⟩
              exact hready hr2

/-- Claim C1: for every hybrid scan run, the final inventory
(`EVENT_DEVICES_INFOS`) is emitted at a step if and only if that step is
one of the completion-predicate evaluation points (a probe completion,
i.e. the resumption after its enrichment, or the discovery-complete
event) and the predicate — discovery phase complete, no probe in flight,
no probe queued — holds in the resulting state; moreover a
discovery-complete event arriving with no discovered hosts yields an
immediate empty inventory. -/
theorem C1_completion_predicate (itv : Nat) (tr : List Ev) (e : Ev)
    (hv : validRun (initState itv) tr = true)
    (hok : okEv (runFrom (initState itv) tr) e = true) :
    ((diCount (step (runFrom (initState itv) tr) e).events
        = diCount (runFrom (initState itv) tr).events + 1)
      ↔ (isEvalPoint e = true ∧ readyB (step (runFrom (initState itv) tr) e) = true))
    ∧ (step (initState 0) (Ev.arpComplete 5)).events
        = [Emit.arpCompleteEv,
           Emit.scanComplete
             { ipArray := [], scanCount := 0, scanTimeMS := 0, scanAverageMS := 0 },
           Emit.devicesInfos []] :=
  ⟨emit_iff_ready _ e (inv_runFrom tr _ (inv_init itv) hv) hok, by decide⟩

theorem C1_witness :
    ((diCount (step (runFrom (initState 0) []) (Ev.arpComplete 5)).events
        = diCount (runFrom (initState 0) []).events + 1)
      ↔ (isEvalPoint (Ev.arpComplete 5) = true
          ∧ readyB (step (runFrom (initState 0) []) (Ev.arpComplete 5)) = true))
    ∧ (step (initState 0) (Ev.arpComplete 5)).events
        = [Emit.arpCompleteEv,
           Emit.scanComplete
             { ipArray := [], scanCount := 0, scanTimeMS := 0, scanAverageMS := 0 },
           Emit.devicesInfos []] :=
  C1_completion_predicate 0 [] (Ev.arpComplete 5) (by decide) (by decide)

/-- Claim C5: whenever starting the ARP discovery probe fails, the run
state ends with the wrapped discovery rejection (the caught error
rethrown as "ARP scan failed, error: ..."), the shared ping session
closed, the discovery subscriptions restored to their pre-run pair, and
zero inventory events emitted (no `EVENT_DEVICES_INFOS` and no
`EVENT_SCAN_COMPLETE`). -/
theorem C5_discovery_failure (itv : Nat) (tr : List Ev)
    (hv : validRun (initState itv) tr = true)
    (hf : (runFrom (initState itv) tr).arpFailed = true) :
    (∃ m, (runFrom (initState itv) tr).rejected
        = some ("ARP scan failed, error: " ++ m))
      ∧ (runFrom (initState itv) tr).sessionClosed = true
      ∧ (runFrom (initState itv) tr).respListeners = preRunRespListeners
      ∧ (runFrom (initState itv) tr).compListeners = preRunCompListeners
      ∧ diCount (runFrom (initState itv) tr).events = 0
      ∧ scCount (runFrom (initState itv) tr).events = 0 := by
  have hInv := inv_runFrom tr (initState itv) (inv_init itv) hv
  have hflag := hInv.failed_flag hf
  have hdi : diCount (runFrom (initState itv) tr).events = 0 := by
    by_contra h
    have h2 := hInv.di_flag (Nat.pos_of_ne_zero h)
    rw [hflag] at h2
    simp at h2
  have hsc : scCount (runFrom (initState itv) tr).events = 0 := by
    by_contra h
    have h2 := hInv.sc_flag (Nat.pos_of_ne_zero h)
    rw [hflag] at h2
    simp at h2
  have hclean := hInv.failed_clean hf
  have hls : (runFrom (initState itv) tr).respListeners = [LTag.defaultResp]
      ∧ (runFrom (initState itv) tr).compListeners = [LTag.defaultComp] := by
    rcases hInv.listeners with ⟨_, _, _, hfl⟩ | ⟨h1, h2, _⟩
    · rw [hf] at hfl
      simp at hfl
    · exact ⟨h1, h2⟩
  exact ⟨hclean.2, hclean.1, hls.1, hls.2, hdi, hsc⟩

theorem C5_witness :
    validRun (initState 0) [Ev.arpFail "boom" 7] = true
      ∧ ((∃ m, (runFrom (initState 0) [Ev.arpFail "boom" 7]).rejected
            = some ("ARP scan failed, error: " ++ m))
        ∧ (runFrom (initState 0) [Ev.arpFail "boom" 7]).sessionClosed = true
        ∧ (runFrom (initState 0) [Ev.arpFail "boom" 7]).respListeners = preRunRespListeners
        ∧ (runFrom (initState 0) [Ev.arpFail "boom" 7]).compListeners = preRunCompListeners
        ∧ diCount (runFrom (initState 0) [Ev.arpFail "boom" 7]).events = 0
        ∧ scCount (runFrom (initState 0) [Ev.arpFail "boom" 7]).events = 0) :=
  ⟨by decide, C5_discovery_failure 0 [Ev.arpFail "boom" 7] (by decide) (by decide)⟩

/-- Claim C6: on every exit path — successful finalization (the inventory
was emitted) or discovery failure — the ARP scanner's event subscriptions
equal exactly the pair installed before the run, so repeated runs do not
accumulate duplicate handlers. -/
theorem C6_subscriptions_restored (itv : Nat) (tr : List Ev)
    (hv : validRun (initState itv) tr = true)
    (hexit : 0 < diCount (runFrom (initState itv) tr).events
        ∨ (runFrom (initState itv) tr).arpFailed = true) :
    (runFrom (initState itv) tr).respListeners = preRunRespListeners
      ∧ (runFrom (initState itv) tr).compListeners = preRunCompListeners := by
  have hInv := inv_runFrom tr (initState itv) (inv_init itv) hv
  rcases hInv.listeners with ⟨_, _, hdi, hfl⟩ | ⟨h1, h2, _⟩
  · exfalso
    rcases hexit with h | h
    · rw [hdi] at h
      simp at h
    · rw [hfl] at h
      simp at h
  · exact ⟨h1, h2⟩

theorem C6_witness :
    validRun (initState 0) [Ev.arpComplete 5] = true
      ∧ 0 < diCount (runFrom (initState 0) [Ev.arpComplete 5]).events
      ∧ ((runFrom (initState 0) [Ev.arpComplete 5]).respListeners = preRunRespListeners
        ∧ (runFrom (initState 0) [Ev.arpComplete 5]).compListeners = preRunCompListeners) :=
  ⟨by decide, by decide,
   C6_subscriptions_restored 0 [Ev.arpComplete 5] (by decide) (Or.inl (by decide))⟩

/-- Claim C2 fails on the code: `schedulePing` checks only the in-flight
set and the completed map, never the pending queue, so reporting the same
address twice while a paced probe for a different address is in flight
enqueues it twice. -/
theorem C2_counterexample :
    validRun (initState 100) c2trace = true
      ∧ (runFrom (initState 100) c2trace).pingQueue.map Prod.fst
          = ["192.168.1.7", "192.168.1.7"] := by
  constructor <;> decide

/-- Claim C2 amended: scheduling an address already in flight or already
completed is a strict no-op (one probe and one inventory entry for such
addresses); an address waiting in the pending queue, however, can be
admitted again, so the queue can hold the same address twice. -/
theorem C2_amended (s : HState) (ip mac : String) (t : Nat)
    (h : s.pingInProgress.contains ip = true ∨ (mapGet s.pingCompleted ip).isSome = true) :
    schedulePing s ip mac t = s := by
  have hb : (s.pingInProgress.contains ip || (mapGet s.pingCompleted ip).isSome) = true := by
    rcases h with h | h
    · simp at h
      simp [h]
    · simp [h]
  unfold schedulePing
  rw [if_pos hb]

theorem C2_amended_witness :
    (({ initState 0 with pingInProgress := ["10.0.0.1"] } : HState).pingInProgress.contains
          "10.0.0.1" = true
        ∨ (mapGet ({ initState 0 with
            pingInProgress := ["10.0.0.1"] } : HState).pingCompleted "10.0.0.1").isSome = true)
      ∧ schedulePing ({ initState 0 with pingInProgress := ["10.0.0.1"] } : HState)
          "10.0.0.1" "mm" 5
        = ({ initState 0 with pingInProgress := ["10.0.0.1"] } : HState) :=
  ⟨Or.inl (by decide),
   C2_amended ({ initState 0 with pingInProgress := ["10.0.0.1"] } : HState) "10.0.0.1" "mm" 5
     (Or.inl (by decide))⟩

/-- Claim C4 is right about the intent and wrong about the code: with
`interval = 100`, a deferred dispatch timer and the timer created by a
later discovery response can both become due, and each fires
`executePing` directly without re-checking the in-flight set, so two
probes are dispatched at the same instant and are simultaneously in
flight.  This run evaluates the machine at such an interleaving: the
in-flight set reaches two elements and the last two dispatch timestamps
coincide (gap 0 < 100). -/
theorem C4_codebug :
    validRun (initState 100) c4trace = true
      ∧ (runFrom (initState 100) c4trace).pingInProgress
          = ["192.168.1.11", "192.168.1.12"]
      ∧ (runFrom (initState 100) c4trace).dispatchLog.map Prod.snd
          = [1000, 1100, 1100] := by
  refine ⟨by decide, by decide, by decide⟩

/-- Claim C7 fails on the code: the `EVENT_SCAN_COMPLETE` payload built by
`checkAndEmitDevicesInfos` hardcodes `scanTimeMS: 0` and
`scanAverageMS: 0`.  In this run the clock has advanced from 0 to 1500 at
finalization, yet the emitted summary reports zero elapsed time. -/
theorem C7_counterexample :
    validRun (initState 0) c7trace = true
      ∧ lastScanReport (runFrom (initState 0) c7trace).events
          = some { ipArray := ["10.0.0.8"], scanCount := 1, scanTimeMS := 0, scanAverageMS := 0 }
      ∧ (runFrom (initState 0) c7trace).clock = 1500 := by
  refine ⟨by decide, by decide, by decide⟩

/-- Claim C7 amended: the completion summary has `count` equal to the
number of completed devices, but its elapsed and average times are the
constant placeholder 0, not measurements from the start of the run. -/
theorem C7_amended (s : HState) (h : readyB s = true) :
    (checkAndEmitDevicesInfos s).events = s.events ++
      [Emit.scanComplete
        { ipArray := (sortedCompleted s).map (·.ip)
          scanCount := s.pingCompleted.length
          scanTimeMS := 0
          scanAverageMS := 0 },
       Emit.devicesInfos (sortedCompleted s)] := by
  simp only [readyB, Bool.and_eq_true, List.isEmpty_iff] at h
  obtain ⟨⟨h1, h2⟩, h3⟩ := h
  have hlen : (sortedCompleted s).length = s.pingCompleted.length := by
    simp [sortedCompleted, insSort_length]
  simp [checkAndEmitDevicesInfos, h1, h2, h3, hlen]

theorem C7_amended_witness :
    readyB ({ initState 0 with arpScanComplete := true } : HState) = true
      ∧ (checkAndEmitDevicesInfos ({ initState 0 with arpScanComplete := true } : HState)).events
        = [Emit.scanComplete
            { ipArray := [], scanCount := 0, scanTimeMS := 0, scanAverageMS := 0 },
           Emit.devicesInfos []] :=
  ⟨by decide,
   C7_amended ({ initState 0 with arpScanComplete := true } : HState) (by decide)⟩

/-- Claim C8 fails on the code: when the address is already in flight (or
completed), `schedulePing` returns without touching `arpDeviceMap`, so the
rediscovered link address m2 is dropped and the map still holds m1. -/
theorem C8_counterexample :
    validRun (initState 0) c8trace = true
      ∧ mapGet (runFrom (initState 0) c8trace).arpDeviceMap "10.0.0.7" = some "m1"
      ∧ mapGet (runFrom (initState 0) c8trace).arpDeviceMap "10.0.0.7" ≠ some "m2" := by
  refine ⟨by decide, by decide, by decide⟩

/-- Claim C8 amended: a discovery response whose address is already in
flight or completed is dropped without updating `knownLinkAddress`; the
mapping is written only when the response is admitted to the pending
queue, so last-write-wins holds only across admitted schedulings. -/
theorem C8_amended (s : HState) (ip mac : String) (t : Nat) :
    ((s.pingInProgress.contains ip || (mapGet s.pingCompleted ip).isSome) = true →
        (schedulePing s ip mac t).arpDeviceMap = s.arpDeviceMap)
      ∧ ((s.pingInProgress.contains ip || (mapGet s.pingCompleted ip).isSome) = false →
        (schedulePing s ip mac t).arpDeviceMap = mapSet s.arpDeviceMap ip mac) := by
  constructor
  · intro h
    unfold schedulePing
    rw [if_pos h]
  · intro h
    unfold schedulePing
    rw [if_neg (by simpa using h)]
    exact launchNextPing_arpDeviceMap _ _

theorem C8_amended_witness :
    (((initState 0).pingInProgress.contains "10.0.0.3"
        || (mapGet (initState 0).pingCompleted "10.0.0.3").isSome) = false)
      ∧ (schedulePing (initState 0) "10.0.0.3" "m3" 1000).arpDeviceMap
        = mapSet (initState 0).arpDeviceMap "10.0.0.3" "m3" :=
  ⟨by decide, (C8_amended (initState 0) "10.0.0.3" "m3" 1000).2 (by decide)⟩

end LanDiscovery
